import Mathlib

/-!
Verification of the rate-limiting and per-user usage-tracking core of the
chatgpt-telegram-bot repository (src/bot.py, src/bot_enhanced.py).

The embedding models the stateful methods of `AIBotEnhanced` as pure Lean
functions over an explicit state record:

  * `check_rate_limit`   — src/bot_enhanced.py lines 125-136 (identical logic
    in src/bot.py lines 92-101, with the cooldown taken from the constructor
    instead of the config dictionary);
  * `update_user_stats`  — src/bot_enhanced.py lines 138-154;
  * `stats_command`      — src/bot_enhanced.py lines 329-363 (the reply is
    abstracted to which of the three textual branches is taken, carrying the
    reported record in the snapshot branch);
  * `get_openai_response` / `get_fallback_response`
                         — src/bot_enhanced.py lines 156-196, with the
    completion client and the random choice made by `random.choice`
    passed in as parameters.

Timestamps (`datetime.now()` values) are modelled as integers; the
subtraction `now - last` and the comparison against the cooldown
`timedelta` become integer subtraction and comparison.  Python dictionaries
become functions `Nat -> Option _` updated with `Function.update`.
-/

/-- One entry of `self.user_stats` (src/bot_enhanced.py lines 144-149):
the dictionary literal has keys `username`, `first_interaction`,
`message_count`, `last_interaction`. -/
structure UserRecord where
  username : Option String
  first_interaction : Int
  message_count : Int
  last_interaction : Option Int
deriving Repr, DecidableEq

/-- The configuration keys the tracker reads, with the defaults from
`load_config` (src/bot_enhanced.py lines 63-70): `cooldown_seconds` default 3,
`enable_stats` default true. -/
structure Config where
  cooldown_seconds : Int
  enable_stats : Bool
deriving Repr, DecidableEq

/-- The mutable state of `AIBotEnhanced` that the tracker operations touch:
`self.user_cooldowns : Dict[int, datetime]` and
`self.user_stats : Dict[int, dict]` (src/bot_enhanced.py lines 48 and 52),
together with the loaded configuration. -/
structure BotState where
  config : Config
  user_cooldowns : Nat → Option Int
  user_stats : Nat → Option UserRecord

/-- The default configuration of `load_config`. -/
def default_config : Config :=
  { cooldown_seconds := 3, enable_stats := true }

/-- The state right after `__init__`: both dictionaries empty
(src/bot_enhanced.py lines 48 and 52). -/
def init_state (cfg : Config) : BotState :=
  { config := cfg, user_cooldowns := fun _ => none, user_stats := fun _ => none }

/-- `check_rate_limit` (src/bot_enhanced.py lines 125-136).  `now` is the
`datetime.now()` observed by the call; the method returns a Bool and mutates
`self.user_cooldowns`, so the embedding returns the Bool together with the
new state.  If the user has an entry and `now - last < cooldown` the call
returns `False` without touching the dictionary; otherwise
`self.user_cooldowns[user_id] = now` and the call returns `True`. -/
def check_rate_limit (s : BotState) (user_id : Nat) (now : Int) : Bool × BotState :=
  let cooldown : Int := s.config.cooldown_seconds
  match s.user_cooldowns user_id with
  | some last =>
      if now - last < cooldown then
        (false, s)
      else
        (true, { s with user_cooldowns := Function.update s.user_cooldowns user_id (some now) })
  | none =>
      (true, { s with user_cooldowns := Function.update s.user_cooldowns user_id (some now) })

/-- Python truthiness of the `username` argument (`if username:` on line 153):
`None` and the empty string are falsy. -/
def truthy : Option String → Bool
  | none => false
  | some str => str ≠ ""

/-- `update_user_stats` (src/bot_enhanced.py lines 138-154).  Returns the new
state.  When `enable_stats` is false the method returns immediately.
Otherwise it creates the record if absent (seeding `first_interaction = now`,
`message_count = 0`, `last_interaction = None`, `username = username`), then
increments `message_count`, sets `last_interaction = now`, and overwrites
`username` only when the argument is truthy. -/
def update_user_stats (s : BotState) (user_id : Nat) (username : Option String)
    (now : Int) : BotState :=
  if !s.config.enable_stats then s
  else
    let base : UserRecord :=
      match s.user_stats user_id with
      | some r => r
      | none =>
          { username := username
            first_interaction := now
            message_count := 0
            last_interaction := none }
    let bumped : UserRecord :=
      { base with message_count := base.message_count + 1, last_interaction := some now }
    let final : UserRecord :=
      if truthy username then { bumped with username := username } else bumped
    { s with user_stats := Function.update s.user_stats user_id (some final) }

/-- The three textual branches of `stats_command`
(src/bot_enhanced.py lines 329-363): the "Statistics tracking is currently
disabled." reply, the per-user statistics message (carrying the record it
renders), and the "No statistics available yet." reply. -/
inductive StatsReply where
  | disabled
  | snapshot (r : UserRecord)
  | noStats
deriving Repr, DecidableEq

/-- `stats_command` (src/bot_enhanced.py lines 329-363).  If stats are
disabled it replies with the disabled notice and returns at once.  Otherwise
it first calls `self.update_user_stats(user_id, user.username)` (line 338)
and then renders the record if present. -/
def stats_command (s : BotState) (user_id : Nat) (username : Option String)
    (now : Int) : StatsReply × BotState :=
  if !s.config.enable_stats then (StatsReply.disabled, s)
  else
    let s' := update_user_stats s user_id username now
    match s'.user_stats user_id with
    | some r => (StatsReply.snapshot r, s')
    | none => (StatsReply.noStats, s')

/-- The record reported by `/stats`, or `none` when no per-user record is
reported (either the disabled notice or the "No statistics available yet."
branch) — the spec abstraction `get_stats : user_id -> Optional<Record>`. -/
def get_stats (s : BotState) (user_id : Nat) (username : Option String)
    (now : Int) : Option UserRecord :=
  match (stats_command s user_id username now).1 with
  | StatsReply.snapshot r => some r
  | _ => none

/-- One role-tagged entry of the `messages` list built by
`get_openai_response` (src/bot_enhanced.py lines 160-169). -/
structure ChatMessage where
  role : String
  content : String
deriving Repr, DecidableEq

/-- The `messages` list of `get_openai_response`: a system entry with the
persona prompt, then one user entry — the knowledge-base context wrapped
around the question when a knowledge base is loaded, the raw question
otherwise (src/bot_enhanced.py lines 160-169). -/
def build_messages (system_prompt : String) (knowledge_base : Option String)
    (user_message : String) : List ChatMessage :=
  let head : ChatMessage := { role := "system", content := system_prompt }
  match knowledge_base with
  | some kb =>
      [head, { role := "user"
               content := "Additional context and knowledge:\n" ++ kb ++
                 "\n\nUser question: " ++ user_message }]
  | none => [head, { role := "user", content := user_message }]

/-- The fixed list `fallback_responses` of `get_fallback_response`
(src/bot_enhanced.py lines 190-194), byte for byte as it appears in the
source (the source file itself contains mojibake in these literals). -/
def fallback_responses : List String :=
  ["ðŸ¤– I apologize, but I\x27m experiencing some technical difficulties at the moment. Please try again in a few moments.",
   "âš ï¸ I\x27m currently having trouble connecting to my AI services. Please give me a moment and try again.",
   "ï¿½ I\x27m experiencing a temporary service interruption. Please try your question again shortly."]

/-- `get_fallback_response` (src/bot_enhanced.py lines 188-196).
`random.choice` picks one element of the list; the random draw is modelled
by the index `choice`, reduced modulo the length of the list so that every
value of the parameter denotes a legal draw. -/
def get_fallback_response (choice : Nat) : String :=
  fallback_responses.getD (choice % fallback_responses.length) ""

/-- `get_openai_response` (src/bot_enhanced.py lines 156-186).  The
completion client is a parameter mapping the built message list to either
generated text or a failure; every failure inside the `try` block is caught
by the `except` clause, which returns `get_fallback_response()`.  On success
the code returns `response.choices[0].message.content.strip()`. -/
def get_openai_response (completion : List ChatMessage → Except String String)
    (system_prompt : String) (knowledge_base : Option String)
    (user_message : String) (choice : Nat) : String :=
  match completion (build_messages system_prompt knowledge_base user_message) with
  | Except.ok answer => answer.trim
  | Except.error _ => get_fallback_response choice

/-- One tracker operation, with its `datetime.now()` timestamp made
explicit. -/
inductive Op where
  | tryAccept (user_id : Nat) (now : Int)
  | recordInteraction (user_id : Nat) (username : Option String) (now : Int)
  | getStats (user_id : Nat) (username : Option String) (now : Int)
deriving Repr, DecidableEq

/-- The timestamp an operation observes. -/
def Op.time : Op → Int
  | Op.tryAccept _ t => t
  | Op.recordInteraction _ _ t => t
  | Op.getStats _ _ t => t

/-- The state transition of one operation. -/
def step (s : BotState) : Op → BotState
  | Op.tryAccept u t => (check_rate_limit s u t).2
  | Op.recordInteraction u n t => update_user_stats s u n t
  | Op.getStats u n t => (stats_command s u n t).2

/-- Running a sequence of operations from a state. -/
def run (s : BotState) (ops : List Op) : BotState :=
  ops.foldl step s

/-- Timestamps of a trace are nondecreasing (wall-clock time moves
forward). -/
def timesMono (ops : List Op) : Prop :=
  List.Chain' (fun a b => Op.time a ≤ Op.time b) ops

/-- Running `check_rate_limit` for one fixed user over a list of timestamps,
collecting the returned Booleans. -/
def runUser (s : BotState) (u : Nat) : List Int → List Bool × BotState
  | [] => ([], s)
  | t :: ts =>
      let r := check_rate_limit s u t
      let rest := runUser r.2 u ts
      (r.1 :: rest.1, rest.2)

/-- Modelled from the spec (the natural-language acceptance rule of
`try_accept` used to state the refinement claim): a call at time `t` is
accepted exactly when no earlier call was accepted or `t` minus the time of
the latest accepted call is at least the cooldown; only accepted calls move
the latest-accepted marker. -/
def specDecisions (cooldown : Int) : Option Int → List Int → List Bool
  | _, [] => []
  | none, t :: ts => true :: specDecisions cooldown (some t) ts
  | some l, t :: ts =>
      if cooldown ≤ t - l then true :: specDecisions cooldown (some t) ts
      else false :: specDecisions cooldown (some l) ts

/-- The time of the most recent accepted call in a decision history, or
`none` if no call was accepted. -/
def lastAccepted (start : Option Int) (history : List (Int × Bool)) : Option Int :=
  history.foldl (fun acc p => if p.2 then some p.1 else acc) start

/-- Calling `update_user_stats` once per element of a list of
`(username, now)` arguments, in order. -/
def record_many (s : BotState) (u : Nat) : List (Option String × Int) → BotState
  | [] => s
  | (n, t) :: rest => record_many (update_user_stats s u n t) u rest

/-! ### Helper lemmas about the operations -/

/-- The cooldown the call compares against, as an integer. -/
def cooldownI (s : BotState) : Int := s.config.cooldown_seconds

lemma crl_true_iff (s : BotState) (u : Nat) (now : Int) :
    (check_rate_limit s u now).1 = true ↔
      (s.user_cooldowns u = none ∨
        ∃ l, s.user_cooldowns u = some l ∧ cooldownI s ≤ now - l) := by
  unfold check_rate_limit cooldownI
  rcases h : s.user_cooldowns u with _ | l
  · simp
  · by_cases hlt : now - l < (s.config.cooldown_seconds : Int)
    · simp [hlt, h]
    · simp [hlt, h]
      omega

lemma crl_false_state (s : BotState) (u : Nat) (now : Int)
    (h : (check_rate_limit s u now).1 = false) : (check_rate_limit s u now).2 = s := by
  unfold check_rate_limit at h ⊢
  rcases hc : s.user_cooldowns u with _ | l
  · simp [hc] at h
  · simp only [hc] at h ⊢
    by_cases hlt : now - l < (s.config.cooldown_seconds : Int)
    · simp [hlt]
    · simp [hlt] at h

lemma crl_entry (s : BotState) (u : Nat) (now : Int) :
    (check_rate_limit s u now).2.user_cooldowns u =
      (if (check_rate_limit s u now).1 then some now else s.user_cooldowns u) := by
  unfold check_rate_limit
  rcases hc : s.user_cooldowns u with _ | l
  · simp [hc, Function.update]
  · by_cases hlt : now - l < (s.config.cooldown_seconds : Int)
    · simp [hc, hlt]
    · simp [hc, hlt, Function.update]

lemma crl_other (s : BotState) (u v : Nat) (now : Int) (h : v ≠ u) :
    (check_rate_limit s u now).2.user_cooldowns v = s.user_cooldowns v := by
  unfold check_rate_limit
  rcases hc : s.user_cooldowns u with _ | l
  · simp [hc, Function.update, h]
  · by_cases hlt : now - l < (s.config.cooldown_seconds : Int)
    · simp [hc, hlt]
    · simp [hc, hlt, Function.update, h]

lemma crl_config (s : BotState) (u : Nat) (now : Int) :
    (check_rate_limit s u now).2.config = s.config := by
  unfold check_rate_limit
  rcases hc : s.user_cooldowns u with _ | l
  · simp [hc]
  · by_cases hlt : now - l < (s.config.cooldown_seconds : Int)
    · simp [hc, hlt]
    · simp [hc, hlt]

lemma crl_stats (s : BotState) (u : Nat) (now : Int) :
    (check_rate_limit s u now).2.user_stats = s.user_stats := by
  unfold check_rate_limit
  rcases hc : s.user_cooldowns u with _ | l
  · simp [hc]
  · by_cases hlt : now - l < (s.config.cooldown_seconds : Int)
    · simp [hc, hlt]
    · simp [hc, hlt]

lemma uus_disabled (s : BotState) (u : Nat) (n : Option String) (t : Int)
    (h : s.config.enable_stats = false) : update_user_stats s u n t = s := by
  unfold update_user_stats
  simp [h]

lemma uus_entry_fresh (s : BotState) (u : Nat) (n : Option String) (t : Int)
    (hen : s.config.enable_stats = true) (hf : s.user_stats u = none) :
    (update_user_stats s u n t).user_stats u =
      some { username := n, first_interaction := t, message_count := 1,
             last_interaction := some t } := by
  unfold update_user_stats
  simp only [hen, hf, Bool.not_true, Bool.false_eq_true, if_false]
  by_cases htr : truthy n
  · simp [htr, Function.update]
  · simp [htr, Function.update]

lemma uus_entry_existing (s : BotState) (u : Nat) (n : Option String) (t : Int)
    (r : UserRecord) (hen : s.config.enable_stats = true)
    (hr : s.user_stats u = some r) :
    (update_user_stats s u n t).user_stats u =
      some { username := if truthy n then n else r.username,
             first_interaction := r.first_interaction,
             message_count := r.message_count + 1,
             last_interaction := some t } := by
  unfold update_user_stats
  simp only [hen, hr, Bool.not_true, Bool.false_eq_true, if_false]
  by_cases htr : truthy n
  · simp [htr, Function.update]
  · simp [htr, Function.update]

lemma uus_other (s : BotState) (u v : Nat) (n : Option String) (t : Int) (h : v ≠ u) :
    (update_user_stats s u n t).user_stats v = s.user_stats v := by
  unfold update_user_stats
  by_cases hen : s.config.enable_stats
  · simp [hen, Function.update, h]
  · simp [hen]

lemma uus_config (s : BotState) (u : Nat) (n : Option String) (t : Int) :
    (update_user_stats s u n t).config = s.config := by
  unfold update_user_stats
  by_cases hen : s.config.enable_stats
  · simp [hen]
  · simp [hen]

lemma uus_cooldowns (s : BotState) (u : Nat) (n : Option String) (t : Int) :
    (update_user_stats s u n t).user_cooldowns = s.user_cooldowns := by
  unfold update_user_stats
  by_cases hen : s.config.enable_stats
  · simp [hen]
  · simp [hen]

lemma sc_state (s : BotState) (u : Nat) (n : Option String) (t : Int) :
    (stats_command s u n t).2 =
      (if s.config.enable_stats then update_user_stats s u n t else s) := by
  unfold stats_command
  by_cases hen : s.config.enable_stats
  · simp only [hen, Bool.not_true, Bool.false_eq_true, if_false, if_true]
    rcases h : (update_user_stats s u n t).user_stats u with _ | r
    · simp [h]
    · simp [h]
  · simp [hen]

/-! ### Claim theorems: rate limiting -/

lemma crl_result_formula (s : BotState) (u : Nat) (now : Int) :
    (check_rate_limit s u now).1 =
      (match s.user_cooldowns u with
       | none => true
       | some l => !(decide (now - l < cooldownI s))) := by
  unfold check_rate_limit cooldownI
  rcases hc : s.user_cooldowns u with _ | l
  · simp
  · by_cases hlt : now - l < (s.config.cooldown_seconds : Int)
    · simp [hlt]
    · simp [hlt]

/-- C2: `check_rate_limit` accepts exactly when the user has no stored
timestamp or `now - last >= cooldown`; on acceptance it stores `now`, and
with the default 3-unit cooldown the scenario accept(0), reject(1),
accept(3) plays out. -/
theorem claim_C2 :
    (∀ (s : BotState) (u : Nat) (now : Int),
      ((check_rate_limit s u now).1 = true ↔
        (s.user_cooldowns u = none ∨
          ∃ l, s.user_cooldowns u = some l ∧ cooldownI s ≤ now - l)) ∧
      (check_rate_limit s u now).2.user_cooldowns u =
        (if (check_rate_limit s u now).1 then some now else s.user_cooldowns u)) ∧
    (runUser (init_state default_config) 42 [0, 1, 3]).1 = [true, false, true] :=
  ⟨fun s u now => ⟨crl_true_iff s u now, crl_entry s u now⟩, by decide⟩

/-- C3: after an accepted call at `t1`, a second call at `t2 > t1` is
rejected when `t2 - t1` is below the cooldown and accepted when it is at
least the cooldown. -/
theorem claim_C3 (s : BotState) (u : Nat) (t1 t2 : Int) (h12 : t1 < t2)
    (hacc : (check_rate_limit s u t1).1 = true) :
    (t2 - t1 < cooldownI s →
      (check_rate_limit (check_rate_limit s u t1).2 u t2).1 = false) ∧
    (cooldownI s ≤ t2 - t1 →
      (check_rate_limit (check_rate_limit s u t1).2 u t2).1 = true) := by
  have hentry : (check_rate_limit s u t1).2.user_cooldowns u = some t1 := by
    have h := crl_entry s u t1
    rw [hacc] at h
    simpa using h
  have hcd : cooldownI (check_rate_limit s u t1).2 = cooldownI s := by
    unfold cooldownI
    rw [crl_config]
  constructor
  · intro hlt
    cases hres : (check_rate_limit (check_rate_limit s u t1).2 u t2).1
    · rfl
    · exfalso
      rcases (crl_true_iff _ u t2).mp hres with hnone | ⟨l, hl, hle⟩
      · rw [hentry] at hnone
        exact Option.noConfusion hnone
      · rw [hentry] at hl
        rw [hcd] at hle
        have hlt1 : t1 = l := by injection hl
        omega
  · intro hle
    refine (crl_true_iff _ u t2).mpr (Or.inr ⟨t1, hentry, ?_⟩)
    rw [hcd]
    exact hle

/-- C3 witness: cooldown 3, accepted at 0, the call at 2 is rejected. -/
theorem claim_C3_witness :
    (check_rate_limit (check_rate_limit (init_state default_config) 42 0).2 42 2).1 = false :=
  (claim_C3 (init_state default_config) 42 0 2 (by decide) (by decide)).1 (by decide)

/-- C4: a rejected call leaves the whole state (cooldown table included)
unchanged, and the operation is total: it returns a Boolean and a state on
every input. -/
theorem claim_C4 (s : BotState) (u : Nat) (now : Int)
    (h : (check_rate_limit s u now).1 = false) :
    (check_rate_limit s u now).2 = s ∧
    ∃ b s', check_rate_limit s u now = (b, s') :=
  ⟨crl_false_state s u now h, _, _, rfl⟩

/-- C4 witness: with cooldown 3, the rejected call at 1 returns the state of
the accepted call at 0 unchanged. -/
theorem claim_C4_witness :
    (check_rate_limit (check_rate_limit (init_state default_config) 42 0).2 42 1).2 =
      (check_rate_limit (init_state default_config) 42 0).2 ∧
    ∃ b s', check_rate_limit (check_rate_limit (init_state default_config) 42 0).2 42 1 =
      (b, s') :=
  claim_C4 _ 42 1 (by decide)

/-- C9: operations of one user neither read nor write another user's
entries — `check_rate_limit` and `update_user_stats` for `v` leave `u`'s
entries untouched, the result of `u`'s `check_rate_limit` depends only on
`u`'s own entry and the configuration, and the two fresh users 1 and 2 are
both accepted at t = 0. -/
theorem claim_C9 (u v : Nat) (huv : u ≠ v) :
    (∀ (s : BotState) (t : Int),
      (check_rate_limit s v t).2.user_cooldowns u = s.user_cooldowns u ∧
      (check_rate_limit s v t).2.user_stats u = s.user_stats u) ∧
    (∀ (s : BotState) (n : Option String) (t : Int),
      (update_user_stats s v n t).user_stats u = s.user_stats u ∧
      (update_user_stats s v n t).user_cooldowns u = s.user_cooldowns u) ∧
    (∀ (s s' : BotState) (t : Int),
      s.user_cooldowns u = s'.user_cooldowns u → s.config = s'.config →
      (check_rate_limit s u t).1 = (check_rate_limit s' u t).1 ∧
      (check_rate_limit s u t).2.user_cooldowns u =
        (check_rate_limit s' u t).2.user_cooldowns u) ∧
    ((check_rate_limit (init_state default_config) 1 0).1 = true ∧
      (check_rate_limit (check_rate_limit (init_state default_config) 1 0).2 2 0).1 = true) := by
  refine ⟨fun s t => ⟨crl_other s v u t huv, by rw [crl_stats]⟩,
          fun s n t => ⟨uus_other s v u n t huv, by rw [uus_cooldowns]⟩,
          fun s s' t hcool hcfg => ?_, by decide, by decide⟩
  have hres : (check_rate_limit s u t).1 = (check_rate_limit s' u t).1 := by
    rw [crl_result_formula, crl_result_formula, hcool]
    have : cooldownI s = cooldownI s' := by
      unfold cooldownI
      rw [hcfg]
    rw [this]
  refine ⟨hres, ?_⟩
  rw [crl_entry, crl_entry, hres, hcool]

/-- C9 witness: users 1 and 2 are both accepted at t = 0. -/
theorem claim_C9_witness :
    (check_rate_limit (init_state default_config) 1 0).1 = true ∧
    (check_rate_limit (check_rate_limit (init_state default_config) 1 0).2 2 0).1 = true :=
  (claim_C9 1 2 (by decide)).2.2.2

/-! ### Claim theorems: statistics tracking -/

/-- C1 counterexample: in the freshly initialized state (stats enabled,
user 7 never interacted), the `/stats` path does not report "absent" — it
reports a snapshot — and it mutates the state, creating a record for user 7
with `message_count = 1`. -/
theorem claim_C1_cex :
    (init_state default_config).user_stats 7 = none ∧
    get_stats (init_state default_config) 7 none 0 ≠ none ∧
    (stats_command (init_state default_config) 7 none 0).2.user_stats 7 =
      some { username := none, first_interaction := 0, message_count := 1,
             last_interaction := some 0 } :=
  ⟨rfl, by decide, by decide⟩

/-- C1 (amended): with stats enabled, the `/stats` path first records the
interaction — its state effect is exactly `update_user_stats` — and for a
never-seen user it reports the freshly created record (message_count 1),
not "absent". -/
theorem claim_C1_amended (s : BotState) (u : Nat) (n : Option String) (t : Int)
    (hen : s.config.enable_stats = true) (hf : s.user_stats u = none) :
    (stats_command s u n t).2 = update_user_stats s u n t ∧
    get_stats s u n t =
      some { username := n, first_interaction := t, message_count := 1,
             last_interaction := some t } := by
  have hstate := sc_state s u n t
  rw [hen, if_pos rfl] at hstate
  refine ⟨hstate, ?_⟩
  unfold get_stats stats_command
  rw [hen]
  simp only [Bool.not_true, Bool.false_eq_true, if_false]
  rw [uus_entry_fresh s u n t hen hf]

/-- C1 witness: concrete instance of the amended claim at the initial
state. -/
theorem claim_C1_witness :
    (stats_command (init_state default_config) 7 none 0).2 =
      update_user_stats (init_state default_config) 7 none 0 ∧
    get_stats (init_state default_config) 7 none 0 =
      some { username := none, first_interaction := 0, message_count := 1,
             last_interaction := some 0 } :=
  claim_C1_amended (init_state default_config) 7 none 0 rfl rfl

/-- C7: with stats disabled, `update_user_stats` is the identity on the
state and the `/stats` path reports no record and changes nothing; in
particular recording user 7 as "alice" and then asking for stats still
reports no record. -/
theorem claim_C7 (s : BotState) (hdis : s.config.enable_stats = false) :
    (∀ (u : Nat) (n : Option String) (t : Int), update_user_stats s u n t = s) ∧
    (∀ (u : Nat) (n : Option String) (t : Int),
      get_stats s u n t = none ∧ (stats_command s u n t).2 = s) ∧
    get_stats (update_user_stats s 7 (some "alice") 0) 7 none 1 = none := by
  have hnoop : ∀ (u : Nat) (n : Option String) (t : Int), update_user_stats s u n t = s :=
    fun u n t => uus_disabled s u n t hdis
  have hgets : ∀ (u : Nat) (n : Option String) (t : Int),
      get_stats s u n t = none ∧ (stats_command s u n t).2 = s := by
    intro u n t
    unfold get_stats stats_command
    rw [hdis]
    simp
  exact ⟨hnoop, hgets, by rw [hnoop 7 (some "alice") 0]; exact (hgets 7 none 1).1⟩

/-- C7 witness: concrete disabled configuration, scenario
`record_interaction(7, "alice", 0)` then `get_stats(7)` reports no
record. -/
theorem claim_C7_witness :
    get_stats (update_user_stats
        (init_state { cooldown_seconds := 3, enable_stats := false })
        7 (some "alice") 0) 7 none 1 = none :=
  (claim_C7 (init_state { cooldown_seconds := 3, enable_stats := false }) rfl).2.2

/-! ### Claim theorems: statistics updates and fallback path -/

lemma record_many_existing (u : Nat) :
    ∀ (calls : List (Option String × Int)) (s : BotState) (r : UserRecord),
      s.config.enable_stats = true → s.user_stats u = some r →
      ((record_many s u calls).user_stats u).map
          (fun q => (q.message_count, q.first_interaction)) =
        some (r.message_count + calls.length, r.first_interaction) := by
  intro calls
  induction calls with
  | nil =>
      intro s r hen hr
      simp [record_many, hr]
  | cons c rest ih =>
      intro s r hen hr
      rcases c with ⟨n, t⟩
      have hen' : (update_user_stats s u n t).config.enable_stats = true := by
        rw [uus_config]
        exact hen
      have hr' := uus_entry_existing s u n t r hen hr
      have := ih (update_user_stats s u n t) _ hen' hr'
      rw [record_many] at *
      rw [this]
      simp
      omega

/-- C5: `update_user_stats` creates the record on first call seeding
`first_interaction = now` and `message_count = 1`; on every later call it
sets `last_interaction = now`, adds exactly 1 to `message_count`, and
overwrites the stored name exactly when the supplied one is truthy; hence
a fresh user recorded `1 + rest.length` times ends with that message count
and with `first_interaction` equal to the first call's timestamp. -/
theorem claim_C5 (s : BotState) (u : Nat) (hen : s.config.enable_stats = true) :
    (∀ (n : Option String) (t : Int), s.user_stats u = none →
      (update_user_stats s u n t).user_stats u =
        some { username := n, first_interaction := t, message_count := 1,
               last_interaction := some t }) ∧
    (∀ (n : Option String) (t : Int) (r : UserRecord), s.user_stats u = some r →
      (update_user_stats s u n t).user_stats u =
        some { username := if truthy n then n else r.username,
               first_interaction := r.first_interaction,
               message_count := r.message_count + 1,
               last_interaction := some t }) ∧
    (∀ (n0 : Option String) (t0 : Int) (rest : List (Option String × Int)),
      s.user_stats u = none →
      ((record_many s u ((n0, t0) :: rest)).user_stats u).map
          (fun q => (q.message_count, q.first_interaction)) =
        some (1 + (rest.length : Int), t0)) := by
  refine ⟨fun n t hf => uus_entry_fresh s u n t hen hf,
          fun n t r hr => uus_entry_existing s u n t r hen hr,
          fun n0 t0 rest hf => ?_⟩
  simp only [record_many]
  have hen' : (update_user_stats s u n0 t0).config.enable_stats = true := by
    rw [uus_config]
    exact hen
  have hr' := uus_entry_fresh s u n0 t0 hen hf
  have hrec := record_many_existing u rest (update_user_stats s u n0 t0) _ hen' hr'
  rw [hrec]

/-- C5 witness: one fresh call for user 7 named "alice" at t = 0 yields the
seeded record, and three recordings in a row yield message count 3 with the
original first timestamp. -/
theorem claim_C5_witness :
    (update_user_stats (init_state default_config) 7 (some "alice") 0).user_stats 7 =
      some { username := some "alice", first_interaction := 0, message_count := 1,
             last_interaction := some 0 } ∧
    ((record_many (init_state default_config) 7
        [(some "alice", 0), (none, 1), (some "", 2)]).user_stats 7).map
        (fun q => (q.message_count, q.first_interaction)) = some (3, 0) :=
  ⟨(claim_C5 (init_state default_config) 7 rfl).1 (some "alice") 0 rfl,
   (claim_C5 (init_state default_config) 7 rfl).2.2 (some "alice") 0
     [(none, 1), (some "", 2)] rfl⟩

/-- C8: whenever the completion client fails on the built message list, the
response path returns normally and the reply is one of the three fixed
fallback strings. -/
theorem claim_C8 (completion : List ChatMessage → Except String String)
    (sp : String) (kb : Option String) (msg : String) (choice : Nat) (e : String)
    (hfail : completion (build_messages sp kb msg) = Except.error e) :
    get_openai_response completion sp kb msg choice ∈ fallback_responses := by
  unfold get_openai_response
  rw [hfail]
  have h3 : choice % 3 = 0 ∨ choice % 3 = 1 ∨ choice % 3 = 2 := by omega
  unfold get_fallback_response
  rcases h3 with h | h | h <;>
    simp [fallback_responses, h]

/-- C8 witness: a completion client that always fails yields a reply from
the fallback set. -/
theorem claim_C8_witness :
    get_openai_response (fun _ => Except.error "boom") "prompt" none "hi" 5 ∈
      fallback_responses :=
  claim_C8 (fun _ => Except.error "boom") "prompt" none "hi" 5 "boom" rfl

/-! ### Claim theorems: refinement of the cooldown state -/

lemma crl_cooldownI (s : BotState) (u : Nat) (t : Int) :
    cooldownI (check_rate_limit s u t).2 = cooldownI s := by
  unfold cooldownI
  rw [crl_config]

lemma specDecisions_nil (cd : Int) (o : Option Int) : specDecisions cd o [] = [] := by
  cases o <;> rfl

lemma specDecisions_cons_some (cd l t : Int) (ts : List Int) :
    specDecisions cd (some l) (t :: ts) =
      (if cd ≤ t - l then true :: specDecisions cd (some t) ts
       else false :: specDecisions cd (some l) ts) := rfl

lemma runUser_spec (u : Nat) : ∀ (ts : List Int) (s : BotState),
    (runUser s u ts).1 = specDecisions (cooldownI s) (s.user_cooldowns u) ts ∧
    (runUser s u ts).2.user_cooldowns u =
      lastAccepted (s.user_cooldowns u) (ts.zip (runUser s u ts).1) ∧
    (runUser s u ts).2.config = s.config := by
  intro ts
  induction ts with
  | nil => exact fun s => ⟨(specDecisions_nil _ _).symm, rfl, rfl⟩
  | cons t ts ih =>
      intro s
      obtain ⟨ih1, ih2, ih3⟩ := ih (check_rate_limit s u t).2
      have hcfg : (runUser (check_rate_limit s u t).2 u ts).2.config = s.config := by
        rw [ih3, crl_config]
      simp only [runUser]
      rcases hc : s.user_cooldowns u with _ | l
      · have hb : (check_rate_limit s u t).1 = true := by
          rw [crl_result_formula, hc]
        have he : (check_rate_limit s u t).2.user_cooldowns u = some t := by
          rw [crl_entry, hb]
          rfl
        refine ⟨?_, ?_, hcfg⟩
        · rw [hb, ih1, crl_cooldownI, he]
          rfl
        · rw [ih2, he, hb]
          rfl
      · by_cases hlt : t - l < cooldownI s
        · have hb : (check_rate_limit s u t).1 = false := by
            rw [crl_result_formula, hc]
            simp [hlt]
          have hs : (check_rate_limit s u t).2 = s := crl_false_state s u t hb
          rw [hs] at ih1 ih2
          refine ⟨?_, ?_, hcfg⟩
          · rw [hs, hb, ih1, hc, specDecisions_cons_some, if_neg (by omega)]
          · rw [hs, hb, ih2, hc]
            rfl
        · have hb : (check_rate_limit s u t).1 = true := by
            rw [crl_result_formula, hc]
            simp [hlt]
          have he : (check_rate_limit s u t).2.user_cooldowns u = some t := by
            rw [crl_entry, hb]
            rfl
          refine ⟨?_, ?_, hcfg⟩
          · rw [hb, ih1, crl_cooldownI, he, specDecisions_cons_some, if_pos (by omega)]
          · rw [ih2, he, hb]
            rfl

/-- C10: running `check_rate_limit` for one user from the initial state, the
decisions are exactly those of the specification rule (accept iff no earlier
accepted call or the gap from the latest accepted call reaches the
cooldown — rejected attempts never move the marker), the stored timestamp
afterwards is the time of the most recent accepted call (absent if none),
and no statistics operation ever touches the cooldown table. -/
theorem claim_C10 (cfg : Config) (u : Nat) (ts : List Int) :
    (runUser (init_state cfg) u ts).1 = specDecisions cfg.cooldown_seconds none ts ∧
    (runUser (init_state cfg) u ts).2.user_cooldowns u =
      lastAccepted none (ts.zip (runUser (init_state cfg) u ts).1) ∧
    (∀ (s : BotState) (v : Nat) (n : Option String) (t : Int),
      (update_user_stats s v n t).user_cooldowns = s.user_cooldowns ∧
      (stats_command s v n t).2.user_cooldowns = s.user_cooldowns) := by
  obtain ⟨h1, h2, _⟩ := runUser_spec u ts (init_state cfg)
  refine ⟨h1, h2, fun s v n t => ⟨uus_cooldowns s v n t, ?_⟩⟩
  rw [sc_state]
  by_cases hen : s.config.enable_stats
  · rw [if_pos hen, uus_cooldowns]
  · rw [if_neg hen]

/-! ### Claim theorems: trace invariant of the statistics table -/

/-- Invariant of the statistics table relative to a time watermark `T`: every
existing record was last touched at some time between its creation and `T`,
and has been counted at least once. -/
def StatsOK (s : BotState) (T : Int) : Prop :=
  ∀ (u : Nat) (r : UserRecord), s.user_stats u = some r →
    (∃ t, r.last_interaction = some t ∧ r.first_interaction ≤ t ∧ t ≤ T) ∧
    1 ≤ r.message_count

lemma statsOK_mono (s : BotState) (T T' : Int) (h : T ≤ T') (hok : StatsOK s T) :
    StatsOK s T' := by
  intro u r hr
  obtain ⟨⟨t, hlast, hfirst, hT⟩, hcount⟩ := hok u r hr
  exact ⟨⟨t, hlast, hfirst, le_trans hT h⟩, hcount⟩

lemma uus_statsOK (s : BotState) (u : Nat) (n : Option String) (t' T : Int)
    (hok : StatsOK s T) (hT : T ≤ t') :
    StatsOK (update_user_stats s u n t') t' := by
  intro v r hv
  by_cases hvu : v = u
  · subst hvu
    cases hen : s.config.enable_stats with
    | false =>
        rw [uus_disabled s v n t' hen] at hv
        exact statsOK_mono s T t' hT hok v r hv
    | true =>
        rcases hold : s.user_stats v with _ | q
        · rw [uus_entry_fresh s v n t' hen hold] at hv
          injection hv with hv
          subst hv
          exact ⟨⟨t', rfl, le_refl _, le_refl _⟩, by simp⟩
        · rw [uus_entry_existing s v n t' q hen hold] at hv
          injection hv with hv
          subst hv
          obtain ⟨⟨t0, hlast, hfirst, hT0⟩, hcount⟩ := hok v q hold
          refine ⟨⟨t', rfl, ?_, le_refl _⟩, ?_⟩
          · simp only []
            omega
          · simp only []
            omega
  · rw [uus_other s u v n t' hvu] at hv
    exact statsOK_mono s T t' hT hok v r hv

lemma step_statsOK (s : BotState) (op : Op) (T : Int) (hok : StatsOK s T)
    (hT : T ≤ op.time) : StatsOK (step s op) op.time := by
  cases op with
  | tryAccept v t =>
      intro w r hw
      rw [step] at hw
      rw [crl_stats] at hw
      exact statsOK_mono s T t hT hok w r hw
  | recordInteraction v n t =>
      exact uus_statsOK s v n t T hok hT
  | getStats v n t =>
      have hst : step s (Op.getStats v n t) = (stats_command s v n t).2 := rfl
      rw [hst, sc_state]
      by_cases hen : s.config.enable_stats
      · rw [if_pos hen]
        exact uus_statsOK s v n t T hok hT
      · rw [if_neg hen]
        exact statsOK_mono s T t hT hok

lemma run_statsOK : ∀ (ops : List Op) (s : BotState) (T : Int),
    StatsOK s T → timesMono ops →
    (∀ a, ops.head? = some a → T ≤ Op.time a) →
    ∃ T', StatsOK (run s ops) T' := by
  intro ops
  induction ops with
  | nil => exact fun s T hok _ _ => ⟨T, hok⟩
  | cons op rest ih =>
      intro s T hok hmono hhead
      have hT : T ≤ op.time := hhead op rfl
      have hok' := step_statsOK s op T hok hT
      obtain ⟨hstep, hmono'⟩ := List.chain'_cons'.mp hmono
      have hhead' : ∀ a, rest.head? = some a → Op.time op ≤ Op.time a := by
        intro a ha
        exact hstep a (Option.mem_def.mpr ha)
      have hrun : run s (op :: rest) = run (step s op) rest := rfl
      rw [hrun]
      exact ih (step s op) op.time hok' hmono' hhead'

lemma uus_preserved (s : BotState) (u : Nat) (n : Option String) (t : Int)
    (v : Nat) (q : UserRecord) (hq : s.user_stats v = some q) :
    ∃ q', (update_user_stats s u n t).user_stats v = some q' ∧
      q'.first_interaction = q.first_interaction ∧
      q.message_count ≤ q'.message_count := by
  cases hen : s.config.enable_stats with
  | false =>
      rw [uus_disabled s u n t hen]
      exact ⟨q, hq, rfl, le_refl _⟩
  | true =>
      by_cases hvu : v = u
      · subst hvu
        rw [uus_entry_existing s v n t q hen hq]
        refine ⟨_, rfl, rfl, ?_⟩
        simp only []
        omega
      · rw [uus_other s u v n t hvu]
        exact ⟨q, hq, rfl, le_refl _⟩

lemma step_preserved (s : BotState) (op : Op) (v : Nat) (q : UserRecord)
    (hq : s.user_stats v = some q) :
    ∃ q', (step s op).user_stats v = some q' ∧
      q'.first_interaction = q.first_interaction ∧
      q.message_count ≤ q'.message_count := by
  cases op with
  | tryAccept w t =>
      have hst : (step s (Op.tryAccept w t)).user_stats = s.user_stats := crl_stats s w t
      rw [hst]
      exact ⟨q, hq, rfl, le_refl _⟩
  | recordInteraction w n t =>
      exact uus_preserved s w n t v q hq
  | getStats w n t =>
      have hst : step s (Op.getStats w n t) = (stats_command s w n t).2 := rfl
      rw [hst, sc_state]
      by_cases hen : s.config.enable_stats
      · rw [if_pos hen]
        exact uus_preserved s w n t v q hq
      · rw [if_neg hen]
        exact ⟨q, hq, rfl, le_refl _⟩

/-- C6: in every state reachable from the initial state by a trace of
operations with nondecreasing timestamps, every existing record satisfies
`first_interaction <= last_interaction` (the latter is set) and
`message_count >= 0`; moreover a single step of any operation never changes
an existing record's `first_interaction` and never decreases its
`message_count`. -/
theorem claim_C6 (cfg : Config) (ops : List Op) (u : Nat) (r : UserRecord)
    (hmono : timesMono ops)
    (hr : (run (init_state cfg) ops).user_stats u = some r) :
    (r.last_interaction ≠ none ∧
      r.first_interaction ≤ r.last_interaction.getD r.first_interaction ∧
      0 ≤ r.message_count) ∧
    (∀ (s : BotState) (op : Op) (v : Nat) (q : UserRecord),
      s.user_stats v = some q →
      ∃ q', (step s op).user_stats v = some q' ∧
        q'.first_interaction = q.first_interaction ∧
        q.message_count ≤ q'.message_count) := by
  refine ⟨?_, fun s op v q hq => step_preserved s op v q hq⟩
  have hinit : StatsOK (init_state cfg)
      (match ops.head? with | some a => Op.time a | none => 0) := by
    intro v q hv
    exact Option.noConfusion hv
  have hhead : ∀ a, ops.head? = some a →
      (match ops.head? with | some a => Op.time a | none => 0) ≤ Op.time a := by
    intro a ha
    rw [ha]
  obtain ⟨T', hok⟩ := run_statsOK ops (init_state cfg) _ hinit hmono hhead
  obtain ⟨⟨t, hlast, hfirst, _⟩, hcount⟩ := hok u r hr
  rw [hlast]
  refine ⟨by simp, by simpa using hfirst, by omega⟩

/-- C6 witness: the record of user 7 after the trace
record(7, "alice", 0); try_accept(7, 1); /stats(7, 2) satisfies the
invariant. -/
theorem claim_C6_witness :
    (({ username := some "alice", first_interaction := 0, message_count := 2,
        last_interaction := some 2 } : UserRecord).last_interaction ≠ none ∧
      ({ username := some "alice", first_interaction := 0, message_count := 2,
         last_interaction := some 2 } : UserRecord).first_interaction ≤
        (({ username := some "alice", first_interaction := 0, message_count := 2,
            last_interaction := some 2 } : UserRecord).last_interaction).getD
          ({ username := some "alice", first_interaction := 0, message_count := 2,
             last_interaction := some 2 } : UserRecord).first_interaction ∧
      0 ≤ ({ username := some "alice", first_interaction := 0, message_count := 2,
             last_interaction := some 2 } : UserRecord).message_count) :=
  (claim_C6 default_config
    [Op.recordInteraction 7 (some "alice") 0, Op.tryAccept 7 1, Op.getStats 7 none 2]
    7 { username := some "alice", first_interaction := 0, message_count := 2,
        last_interaction := some 2 }
    (by simp [timesMono, List.chain'_cons, Op.time]) (by decide)).1
